import Mathlib

set_option maxRecDepth 2000

/-!
Verification of the ReplayGain analysis engine
(`gain_analysis.c`, functions `WAResetSampleFrequency`, `WAInitGainAnalysis`,
`WAAnalyzeSamples`, `analyzeResult`, `WAGetTitleGain`, `WAGetAlbumGain`).

Modelling conventions:

* `Float_t`/`double` arithmetic is modelled by exact rational arithmetic `ℚ`;
  the single transcendental operation (`log10` in the window-loudness bucket
  computation) is modelled over `ℝ` via `Real.logb`.
* The per-channel delay-line buffers (`linprebuf`/`lstepbuf`/`loutbuf` and the
  right-channel counterparts) together with the cursor arithmetic of
  `WAAnalyzeSamples` implement, for each incoming sample, the causal IIR
  recurrences of `filterYule` and `filterButter` with the histories carried
  across chunk and window boundaries (the staging `memcpy` at entry, the
  `memmove` on window completion, and the trailing-history save at exit copy
  exactly the last `MAX_ORDER` raw/step/out values).  The state is therefore
  modelled by the last `MAX_ORDER` values of each of the six streams,
  most-recent first, and the feed loop by a per-sample step function; the
  sub-batch bookkeeping (`cursamples`, `cursamplepos`, `batchsamples`) only
  selects buffer addresses and never changes which arithmetic is performed on
  which sample.  `totsamp` is compared to `sampleWindow` at exactly the same
  sample positions as in the C loop, because each sub-batch is capped at
  `sampleWindow - totsamp` samples.
* The histograms `A` (title) and `B` (album) are total functions `ℕ → ℕ`;
  the C loops that touch them are bounded by `12000`
  (`sizeof(rg->A)/sizeof(*(rg->A))`), which the model preserves.
* C functions that return an error code while mutating the context in place
  are modelled as returning the (possibly mutated) context together with the
  status: `Bool × ReplayGainContext` for the init functions and
  `Except ReplayGainContext ReplayGainContext` for `WAAnalyzeSamples`
  (`Except.error` carries the context exactly as the C call leaves it).
* `GAIN_NOT_ENOUGH_SAMPLES` (declared in the header `gain_analysis.h`, not
  part of the sources) is modelled as `Option.none`.
* `long`/`int` sample-rate arguments are modelled as `ℤ`; the build targets
  Win32, where `long` and `int` are both 32 bits wide, so the
  `(int)(samplefreq)` cast in `WAResetSampleFrequency` is the identity.
* `size_t` is modelled as `ℕ`; the only place where `size_t` wraparound could
  occur (fall-through of the scan loop in `analyzeResult`, where `i--` would
  wrap to `SIZE_MAX = 2^64 - 1`) is modelled explicitly by the fall-through
  index `2 ^ 64 - 1` and proved unreachable.
-/

/-! ## Constants (`#define`s of gain_analysis.c) -/

def YULE_ORDER : ℕ := 10

def BUTTER_ORDER : ℕ := 2

/-- RMS_PERCENTILE = 0.95, kept exactly as a rational. -/
def RMS_PERCENTILE : ℚ := 95 / 100

/-- RMS_WINDOW_TIME = 0.050 seconds, kept exactly as a rational. -/
def RMS_WINDOW_TIME : ℚ := 50 / 1000

/-- STEPS_per_dB = 100. -/
def STEPS_per_dB : ℚ := 100

/-- MAX_dB = 120. -/
def MAX_dB : ℚ := 120

/-- MAX_ORDER = max(BUTTER_ORDER, YULE_ORDER) = 10. -/
def MAX_ORDER : ℕ := 10

/-- PINK_REF = 64.82, the calibration constant. -/
def PINK_REF : ℚ := 6482 / 100

/-- Number of histogram buckets: STEPS_per_dB * MAX_dB = 12000
(`sizeof(rg->A) / sizeof(*(rg->A))`). -/
def histSize : ℕ := 12000

/-! ## Filter coefficient tables

`ABYule[12][2*YULE_ORDER+1]` and `ABButter[12][2*BUTTER_ORDER+1]`, row `i`
selected by `freqindex` (row 0 is 96 kHz … row 11 is 8 kHz).  The decimal
literals are exact rationals. -/

def ABYule : List (List ℚ) :=
  [[0.006471345933032, -7.22103125152679, -0.02567678242161, 24.7034187975904, 0.049805860704367, -52.6825833623896, -0.05823001743528, 77.4825736677539, 0.040611847441914, -82.0074753444205, -0.010912036887501, 63.1566097101925, -0.00901635868667, -34.889569769245, 0.012448886238123, 13.2126852760198, -0.007206683749426, -3.09445623301669, 0.002167156433951, 0.340344741393305, -0.000261819276949],
   [0.015415414474287, -7.19001570087017, -0.07691359399407, 24.4109412087159, 0.196677418516518, -51.6306373580801, -0.338855114128061, 75.3978476863163, 0.430094579594561, -79.4164552507386, -0.415015413747894, 61.0373661948115, 0.304942508151101, -33.7446462547014, -0.166191795926663, 12.8168791146274, 0.063198189938739, -3.01332198541437, -0.015003978694525, 0.223619893831468, 0.001748085184539],
   [0.021776466467053, -5.74819833657784, -0.062376961003801, 16.246507961894, 0.107731165328514, -29.9691822642542, -0.150994515142316, 40.027597579378, 0.170334807313632, -40.3209196052655, -0.157984942890531, 30.8542077487718, 0.121639833268721, -17.5965138737281, -0.074094040816409, 7.10690214103873, 0.031282852041061, -1.82175564515191, -0.00755421235941, 0.223619893831468, 0.00117925454213],
   [0.03857599435200, -3.84664617118067, -0.02160367184185, 7.81501653005538, -0.00123395316851, -11.34170355132042, -0.00009291677959, 13.05504219327545, -0.01655260341619, -12.28759895145294, 0.02161526843274, 9.48293806319790, -0.02074045215285, -5.87257861775999, 0.00594298065125, 2.75465861874613, 0.00306428023191, -0.86984376593551, 0.00012025322027, 0.13919314567432, 0.00288463683916],
   [0.05418656406430, -3.47845948550071, -0.02911007808948, 6.36317777566148, -0.00848709379851, -8.54751527471874, -0.00851165645469, 9.47693607801280, -0.00834990904936, -8.81498681370155, 0.02245293253339, 6.85401540936998, -0.02596338512915, -4.39470996079559, 0.01624864962975, 2.19611684890774, -0.00240879051584, -0.75104302451432, 0.00674613682247, 0.13149317958808, -0.00187763777362],
   [0.15457299681924, -2.37898834973084, -0.09331049056315, 2.84868151156327, -0.06247880153653, -2.64577170229825, 0.02163541888798, 2.23697657451713, -0.05588393329856, -1.67148153367602, 0.04781476674921, 1.00595954808547, 0.00222312597743, -0.45953458054983, 0.03174092540049, 0.16378164858596, -0.01390589421898, -0.05032077717131, 0.00651420667831, 0.02347897407020, -0.00881362733839],
   [0.30296907319327, -1.61273165137247, -0.22613988682123, 1.07977492259970, -0.08587323730772, -0.25656257754070, 0.03282930172664, -0.16276719120440, -0.00915702933434, -0.22638893773906, -0.02364141202522, 0.39120800788284, -0.00584456039913, -0.22138138954925, 0.06276101321749, 0.04500235387352, -0.00000828086748, 0.02005851806501, 0.00205861885564, 0.00302439095741, -0.02950134983287],
   [0.33642304856132, -1.49858979367799, -0.25572241425570, 0.87350271418188, -0.11828570177555, 0.12205022308084, 0.11921148675203, -0.80774944671438, -0.07834489609479, 0.47854794562326, -0.00469977914380, -0.12453458140019, -0.00589500224440, -0.04067510197014, 0.05724228140351, 0.08333755284107, 0.00832043980773, -0.04237348025746, -0.01635381384540, 0.02977207319925, -0.01760176568150],
   [0.44915256608450, -0.62820619233671, -0.14351757464547, 0.29661783706366, -0.22784394429749, -0.37256372942400, -0.01419140100551, 0.00213767857124, 0.04078262797139, -0.42029820170918, -0.12398163381748, 0.22199650564824, 0.04097565135648, 0.00613424350682, 0.10478503600251, 0.06747620744683, -0.01863887810927, 0.05784820375801, -0.03193428438915, 0.03222754072173, 0.00541907748707],
   [0.56619470757641, -1.04800335126349, -0.75464456939302, 0.29156311971249, 0.16242137742230, -0.26806001042947, 0.16744243493672, 0.00819999645858, -0.18901604199609, 0.45054734505008, 0.30931782841830, -0.33032403314006, -0.27562961986224, 0.06739368333110, 0.00647310677246, -0.04784254229033, 0.08647503780351, 0.01639907836189, -0.03788984554840, 0.01807364323573, -0.00588215443421],
   [0.58100494960553, -0.51035327095184, -0.53174909058578, -0.31863563325245, -0.14289799034253, -0.20256413484477, 0.17520704835522, 0.14728154134330, 0.02377945217615, 0.38952639978999, 0.15558449135573, -0.23313271880868, -0.25344790059353, -0.05246019024463, 0.01628462406333, -0.02505961724053, 0.06920467763959, 0.02442357316099, -0.03721611395801, 0.01818801111503, -0.00749618797172],
   [0.53648789255105, -0.25049871956020, -0.42163034350696, -0.43193942311114, -0.00275953611929, -0.03424681017675, 0.04267842219415, -0.04678328784242, -0.10214864179676, 0.26408300200955, 0.14590772289388, 0.15113130533216, -0.02459864859345, -0.17556493366449, -0.11202315195388, -0.18823009262115, -0.04060034127000, 0.05477720428674, 0.04788665548180, 0.04704409688120, -0.02217936801134]]

def ABButter : List (List ℚ) :=
  [[0.99308203517541, -1.98611621154089, -1.98616407035082, 0.986211929160751, 0.99308203517541],
   [0.992472550461293, -1.98488843762334, -1.98494510092258, 0.979389350028798, 0.992472550461293],
   [0.989641019334721, -1.97917472731008, -1.97928203866944, 0.979389350028798, 0.989641019334721],
   [0.98621192462708, -1.97223372919527, -1.97242384925416, 0.97261396931306, 0.98621192462708],
   [0.98500175787242, -1.96977855582618, -1.97000351574484, 0.97022847566350, 0.98500175787242],
   [0.97938932735214, -1.95835380975398, -1.95877865470428, 0.95920349965459, 0.97938932735214],
   [0.97531843204928, -1.95002759149878, -1.95063686409857, 0.95124613669835, 0.97531843204928],
   [0.97316523498161, -1.94561023566527, -1.94633046996323, 0.94705070426118, 0.97316523498161],
   [0.96454515552826, -1.92783286977036, -1.92909031105652, 0.93034775234268, 0.96454515552826],
   [0.96009142950541, -1.91858953033784, -1.92018285901082, 0.92177618768381, 0.96009142950541],
   [0.95856916599601, -1.91542108074780, -1.91713833199203, 0.91885558323625, 0.95856916599601],
   [0.94597685600279, -1.88903307939452, -1.89195371200558, 0.89487434461664, 0.94597685600279]]

/-! ## Per-sample filter recurrences

`filterYule` and `filterButter` are per-sample loops (`while (nSamples--)`)
whose bodies read `input[0..-order]` and `output[-1..-order]`; here the
histories are passed explicitly, most-recent first (`ih.getD 0 0` is
`input[-1]`, `oh.getD 0 0` is `output[-1]`, and so on). -/

/-- One iteration of the `filterYule` loop body: the order-10 IIR recurrence,
including the `1e-10` anti-denormal bias. -/
def filterYuleStep (kernel : List ℚ) (x : ℚ) (ih oh : List ℚ) : ℚ :=
  (1 : ℚ) / 10 ^ 10
    + x * kernel.getD 0 0
    - oh.getD 0 0 * kernel.getD 1 0
    + ih.getD 0 0 * kernel.getD 2 0
    - oh.getD 1 0 * kernel.getD 3 0
    + ih.getD 1 0 * kernel.getD 4 0
    - oh.getD 2 0 * kernel.getD 5 0
    + ih.getD 2 0 * kernel.getD 6 0
    - oh.getD 3 0 * kernel.getD 7 0
    + ih.getD 3 0 * kernel.getD 8 0
    - oh.getD 4 0 * kernel.getD 9 0
    + ih.getD 4 0 * kernel.getD 10 0
    - oh.getD 5 0 * kernel.getD 11 0
    + ih.getD 5 0 * kernel.getD 12 0
    - oh.getD 6 0 * kernel.getD 13 0
    + ih.getD 6 0 * kernel.getD 14 0
    - oh.getD 7 0 * kernel.getD 15 0
    + ih.getD 7 0 * kernel.getD 16 0
    - oh.getD 8 0 * kernel.getD 17 0
    + ih.getD 8 0 * kernel.getD 18 0
    - oh.getD 9 0 * kernel.getD 19 0
    + ih.getD 9 0 * kernel.getD 20 0

/-- One iteration of the `filterButter` loop body: the order-2 IIR
recurrence. -/
def filterButterStep (kernel : List ℚ) (x : ℚ) (ih oh : List ℚ) : ℚ :=
  x * kernel.getD 0 0
    - oh.getD 0 0 * kernel.getD 1 0
    + ih.getD 0 0 * kernel.getD 2 0
    - oh.getD 1 0 * kernel.getD 3 0
    + ih.getD 1 0 * kernel.getD 4 0

/-- The helper `fsqr`. -/
def fsqr (d : ℚ) : ℚ := d * d

/-! ## The analysis context (`ReplayGainContext`) -/

/-- The `ReplayGainContext` struct.  The six delay-line buffers are modelled
by the last `MAX_ORDER` values of each stream (raw, step-filtered,
out-filtered; left and right), most-recent first; the buffer cursors
(`linpre` … `rout` pointers in C) and the unused field `first` have no
abstract content. -/
structure ReplayGainContext where
  linpre : List ℚ
  lstep : List ℚ
  lout : List ℚ
  rinpre : List ℚ
  rstep : List ℚ
  rout : List ℚ
  sampleWindow : ℕ
  totsamp : ℕ
  lsum : ℚ
  rsum : ℚ
  freqindex : ℕ
  A : ℕ → ℕ
  B : ℕ → ℕ

/-- A zeroed history prefix: `MAX_ORDER` zeros (what the init loops write into
`linprebuf[0..MAX_ORDER-1]` and friends). -/
def zeroHist : List ℚ := List.replicate MAX_ORDER 0

/-- Modelled from the spec: `WACreateRGContext` allocates the context with
`malloc`, whose contents the sources leave indeterminate; the specification
(section 3, Lifecycle) states that creation zeroes all state, so the created,
never-initialized context is modelled as the all-zero context. -/
def freshContext : ReplayGainContext :=
  { linpre := zeroHist, lstep := zeroHist, lout := zeroHist
    rinpre := zeroHist, rstep := zeroHist, rout := zeroHist
    sampleWindow := 0, totsamp := 0, lsum := 0, rsum := 0, freqindex := 0
    A := fun _ => 0, B := fun _ => 0 }

/-! ## Initialization (`WAResetSampleFrequency`, `WAInitGainAnalysis`) -/

/-- The `switch ((int)(samplefreq))` of `WAResetSampleFrequency`: maps a
supported sample rate to its `freqindex`, `none` for the `default` branch
(`INIT_GAIN_ANALYSIS_ERROR`). -/
def freqIndexOf (samplefreq : ℤ) : Option ℕ :=
  if samplefreq = 96000 then some 0
  else if samplefreq = 88200 then some 1
  else if samplefreq = 64000 then some 2
  else if samplefreq = 48000 then some 3
  else if samplefreq = 44100 then some 4
  else if samplefreq = 32000 then some 5
  else if samplefreq = 24000 then some 6
  else if samplefreq = 22050 then some 7
  else if samplefreq = 16000 then some 8
  else if samplefreq = 12000 then some 9
  else if samplefreq = 11025 then some 10
  else if samplefreq = 8000 then some 11
  else none

/-- `WAResetSampleFrequency`: zeroes the six history prefixes, then validates
the rate; on success selects the coefficient row, sets
`sampleWindow = ceil(samplefreq * RMS_WINDOW_TIME)`, zeroes the running sums
and the window counter, and clears the title histogram `A`.  The Boolean is
the return code (`true` = `INIT_GAIN_ANALYSIS_OK`); the context is returned
as the call leaves it, also on failure. -/
def WAResetSampleFrequency (rg : ReplayGainContext) (samplefreq : ℤ) :
    Bool × ReplayGainContext :=
  let rg1 := { rg with
    linpre := zeroHist, lstep := zeroHist, lout := zeroHist
    rinpre := zeroHist, rstep := zeroHist, rout := zeroHist }
  match freqIndexOf samplefreq with
  | none => (false, rg1)
  | some fi =>
      (true, { rg1 with
        freqindex := fi
        sampleWindow := (⌈(samplefreq : ℚ) * RMS_WINDOW_TIME⌉).toNat
        lsum := 0, rsum := 0, totsamp := 0
        A := fun _ => 0 })

/-- `WAInitGainAnalysis`: calls `WAResetSampleFrequency` and, only on success,
additionally clears the album histogram `B` (and sets the buffer cursors,
which have no abstract content). -/
def WAInitGainAnalysis (rg : ReplayGainContext) (samplefreq : ℤ) :
    Bool × ReplayGainContext :=
  match WAResetSampleFrequency rg samplefreq with
  | (true, rg1) => (true, { rg1 with B := fun _ => 0 })
  | (false, rg1) => (false, rg1)

/-! ## Window loudness bucket -/

/-- Truncation toward zero, the semantics of the C cast `(int) val`. -/
noncomputable def cTrunc (x : ℝ) : ℤ := if 0 ≤ x then ⌊x⌋ else ⌈x⌉

/-- The window-completion bucket computation of `WAAnalyzeSamples`
(lines computing `val`/`ival`): given the mean square `m` of the completed
window, compute `STEPS_per_dB * 10 * log10 (m + 1e-37)`, cast to `int` and
clamp into `[0, histSize)`. -/
noncomputable def bucketOf (m : ℚ) : ℕ :=
  let val : ℝ := (STEPS_per_dB : ℝ) * 10 * Real.logb 10 ((m : ℝ) + 1e-37)
  let ival : ℤ := cTrunc val
  let ival : ℤ := if ival < 0 then 0 else ival
  let ival : ℤ := if (histSize : ℤ) ≤ ival then (histSize : ℤ) - 1 else ival
  ival.toNat

/-- Increment of one histogram bucket (`rg->A[ival]++`). -/
def histInc (h : ℕ → ℕ) (i : ℕ) : ℕ → ℕ := Function.update h i (h i + 1)

/-! ## The streaming feed loop (`WAAnalyzeSamples`) -/

/-- The left-channel step-filter output produced for one incoming sample
(`YULE_FILTER` on `curleft` into `lstep + totsamp`). -/
def lstepVal (rg : ReplayGainContext) (l : ℚ) : ℚ :=
  filterYuleStep (ABYule.getD rg.freqindex []) l rg.linpre rg.lstep

/-- The right-channel step-filter output for one incoming sample. -/
def rstepVal (rg : ReplayGainContext) (r : ℚ) : ℚ :=
  filterYuleStep (ABYule.getD rg.freqindex []) r rg.rinpre rg.rstep

/-- The left-channel out-filter output for one incoming sample
(`BUTTER_FILTER` on `lstep + totsamp` into `lout + totsamp`). -/
def loutVal (rg : ReplayGainContext) (l : ℚ) : ℚ :=
  filterButterStep (ABButter.getD rg.freqindex []) (lstepVal rg l) rg.lstep rg.lout

/-- The right-channel out-filter output for one incoming sample. -/
def routVal (rg : ReplayGainContext) (r : ℚ) : ℚ :=
  filterButterStep (ABButter.getD rg.freqindex []) (rstepVal rg r) rg.rstep rg.rout

/-- One sample of the `WAAnalyzeSamples` processing loop: run both filter
stages on the left and right sample, accumulate the squared out-filter values
into `lsum`/`rsum`, push the new raw/step/out values onto the six histories,
advance `totsamp`, and, when `totsamp` reaches `sampleWindow`, bin the
window's loudness into the title histogram `A` and reset the sums and the
window counter (the `memmove`s retain the last `MAX_ORDER` step/out values,
which the history lists already do). -/
noncomputable def stepPair (rg : ReplayGainContext) (l r : ℚ) : ReplayGainContext :=
  let lsv := lstepVal rg l
  let rsv := rstepVal rg r
  let lov := loutVal rg l
  let rov := routVal rg r
  let lsum2 := rg.lsum + fsqr lov
  let rsum2 := rg.rsum + fsqr rov
  let tot2 := rg.totsamp + 1
  let rg2 : ReplayGainContext := { rg with
    linpre := (l :: rg.linpre).take MAX_ORDER
    lstep := (lsv :: rg.lstep).take MAX_ORDER
    lout := (lov :: rg.lout).take MAX_ORDER
    rinpre := (r :: rg.rinpre).take MAX_ORDER
    rstep := (rsv :: rg.rstep).take MAX_ORDER
    rout := (rov :: rg.rout).take MAX_ORDER
    lsum := lsum2, rsum := rsum2, totsamp := tot2 }
  if tot2 = rg.sampleWindow then
    { rg2 with
      A := histInc rg.A (bucketOf ((lsum2 + rsum2) / (tot2 : ℚ) * (1 / 2)))
      lsum := 0, rsum := 0, totsamp := 0 }
  else rg2

/-- The `while (batchsamples > 0)` loop of `WAAnalyzeSamples`, per sample
pair, including the internal-overflow check
(`if (totsamp > sampleWindow) return GAIN_ANALYSIS_ERROR`), which in C runs
after each sub-batch; `Except.error` carries the context as the failing
return leaves it. -/
noncomputable def feedPairs (rg : ReplayGainContext) :
    List (ℚ × ℚ) → Except ReplayGainContext ReplayGainContext
  | [] => .ok rg
  | p :: rest =>
      let s := stepPair rg p.1 p.2
      if s.sampleWindow < s.totsamp then .error s else feedPairs s rest

/-- `WAAnalyzeSamples`: `num_samples == 0` returns `GAIN_ANALYSIS_OK` at
once; `num_channels = 1` aliases the right channel to the left, `2` keeps
both, anything else returns `GAIN_ANALYSIS_ERROR` without touching the
context; then the per-sample loop runs over the chunk.  The sample count is
the length of the left-channel list. -/
noncomputable def WAAnalyzeSamples (rg : ReplayGainContext)
    (left_samples right_samples : List ℚ) (num_channels : ℤ) :
    Except ReplayGainContext ReplayGainContext :=
  if left_samples.length = 0 then .ok rg
  else if num_channels = 1 then feedPairs rg (left_samples.zip left_samples)
  else if num_channels = 2 then feedPairs rg (left_samples.zip right_samples)
  else .error rg

/-! ## Gain computation (`analyzeResult`, `WAGetTitleGain`, `WAGetAlbumGain`) -/

/-- The downward scan loop of `analyzeResult`
(`for (i = len; i-- > 0;) if ((upper -= Array[i]) <= 0) break;`):
`percentileScan Arr n upper` examines buckets `n-1, n-2, …, 0`, subtracting
each count from `upper`; it returns `some i` for the break index and `none`
when the loop falls through (in C, `i` would then have wrapped to
`SIZE_MAX`). -/
def percentileScan (Arr : ℕ → ℕ) : ℕ → ℤ → Option ℕ
  | 0, _ => none
  | n + 1, upper =>
      let upper2 := upper - Arr n
      if upper2 ≤ 0 then some n else percentileScan Arr n upper2

/-- `analyzeResult`: sum the histogram; an empty histogram yields the
`GAIN_NOT_ENOUGH_SAMPLES` sentinel (`none`); otherwise set
`upper = ceil(elems * (1 - RMS_PERCENTILE))`, scan downward for the break
index `i`, and return `PINK_REF - i / STEPS_per_dB`.  The fall-through index
models the `size_t` wraparound of the C loop variable. -/
def analyzeResult (Arr : ℕ → ℕ) (len : ℕ) : Option ℚ :=
  let elems := ∑ j ∈ Finset.range len, Arr j
  if elems = 0 then none
  else
    let upper : ℤ := ⌈(elems : ℚ) * (1 - RMS_PERCENTILE)⌉
    let i : ℕ := (percentileScan Arr len upper).getD (2 ^ 64 - 1)
    some (PINK_REF - (i : ℚ) / STEPS_per_dB)

/-- `WAGetTitleGain`: compute the title gain from `A`, then (in this order)
add every `A` bucket into the corresponding `B` bucket and zero it, zero the
six history prefixes, and reset `totsamp` and both running sums; the loops
over the histograms are bounded by `histSize`.  Returns the gain value
together with the mutated context. -/
def WAGetTitleGain (rg : ReplayGainContext) : Option ℚ × ReplayGainContext :=
  let retval := analyzeResult rg.A histSize
  (retval,
    { rg with
      A := fun i => if i < histSize then 0 else rg.A i
      B := fun i => if i < histSize then rg.B i + rg.A i else rg.B i
      linpre := zeroHist, lstep := zeroHist, lout := zeroHist
      rinpre := zeroHist, rstep := zeroHist, rout := zeroHist
      totsamp := 0, lsum := 0, rsum := 0 })

/-- `WAGetAlbumGain`: compute the album gain from `B`; mutates nothing. -/
def WAGetAlbumGain (rg : ReplayGainContext) : Option ℚ :=
  analyzeResult rg.B histSize

/-! ## Reachable context states -/

/-- Context states reachable between calls: a successful
`WAInitGainAnalysis`, followed by any sequence of successful
`WAAnalyzeSamples` calls and `WAGetTitleGain` queries (`WAGetAlbumGain` does
not mutate the context). -/
inductive Reachable : ReplayGainContext → Prop
  | init (rg rg' : ReplayGainContext) (samplefreq : ℤ)
      (h : WAInitGainAnalysis rg samplefreq = (true, rg')) : Reachable rg'
  | feed (s s' : ReplayGainContext) (l r : List ℚ) (ch : ℤ)
      (hs : Reachable s) (h : WAAnalyzeSamples s l r ch = .ok s') : Reachable s'
  | title (s : ReplayGainContext) (hs : Reachable s) :
      Reachable (WAGetTitleGain s).2

/-! ## Helper lemmas -/

lemma bucketOf_lt (m : ℚ) : bucketOf m < histSize := by
  unfold bucketOf
  generalize cTrunc _ = t
  simp only [histSize]
  split_ifs <;> omega

lemma sum_histInc (h : ℕ → ℕ) (b : ℕ) (hb : b < histSize) :
    (∑ i ∈ Finset.range histSize, histInc h b i) =
      (∑ i ∈ Finset.range histSize, h i) + 1 := by
  unfold histInc
  rw [Finset.sum_update_of_mem (Finset.mem_range.mpr hb),
    ← Finset.add_sum_erase _ h (Finset.mem_range.mpr hb), Finset.erase_eq]
  ring

lemma stepPair_B (rg : ReplayGainContext) (l r : ℚ) :
    (stepPair rg l r).B = rg.B := by
  unfold stepPair
  dsimp only
  split <;> rfl

lemma stepPair_sampleWindow (rg : ReplayGainContext) (l r : ℚ) :
    (stepPair rg l r).sampleWindow = rg.sampleWindow := by
  unfold stepPair
  dsimp only
  split <;> rfl

lemma stepPair_totsamp (rg : ReplayGainContext) (l r : ℚ) :
    (stepPair rg l r).totsamp =
      if rg.totsamp + 1 = rg.sampleWindow then 0 else rg.totsamp + 1 := by
  unfold stepPair
  dsimp only
  split <;> simp_all

lemma reset_fst (rg : ReplayGainContext) (rate : ℤ) :
    (WAResetSampleFrequency rg rate).1 = (freqIndexOf rate).isSome := by
  unfold WAResetSampleFrequency
  cases freqIndexOf rate <;> rfl

lemma init_fst (rg : ReplayGainContext) (rate : ℤ) :
    (WAInitGainAnalysis rg rate).1 = (freqIndexOf rate).isSome := by
  rw [← reset_fst rg rate]
  unfold WAInitGainAnalysis
  rcases hr : WAResetSampleFrequency rg rate with ⟨b, rg1⟩
  cases b <;> rfl

lemma freqIndexOf_isSome_iff (rate : ℤ) :
    (freqIndexOf rate).isSome = true ↔
      rate = 8000 ∨ rate = 11025 ∨ rate = 12000 ∨ rate = 16000 ∨
      rate = 22050 ∨ rate = 24000 ∨ rate = 32000 ∨ rate = 44100 ∨
      rate = 48000 ∨ rate = 64000 ∨ rate = 88200 ∨ rate = 96000 := by
  constructor
  · intro h
    unfold freqIndexOf at h
    by_cases h1 : rate = 96000
    · tauto
    rw [if_neg h1] at h
    by_cases h2 : rate = 88200
    · tauto
    rw [if_neg h2] at h
    by_cases h3 : rate = 64000
    · tauto
    rw [if_neg h3] at h
    by_cases h4 : rate = 48000
    · tauto
    rw [if_neg h4] at h
    by_cases h5 : rate = 44100
    · tauto
    rw [if_neg h5] at h
    by_cases h6 : rate = 32000
    · tauto
    rw [if_neg h6] at h
    by_cases h7 : rate = 24000
    · tauto
    rw [if_neg h7] at h
    by_cases h8 : rate = 22050
    · tauto
    rw [if_neg h8] at h
    by_cases h9 : rate = 16000
    · tauto
    rw [if_neg h9] at h
    by_cases h10 : rate = 12000
    · tauto
    rw [if_neg h10] at h
    by_cases h11 : rate = 11025
    · tauto
    rw [if_neg h11] at h
    by_cases h12 : rate = 8000
    · tauto
    rw [if_neg h12] at h
    simp at h
  · intro h
    rcases h with h | h | h | h | h | h | h | h | h | h | h | h <;> subst h <;> rfl

/-! ## C6 -/

/-- C6: `WAInitGainAnalysis` succeeds exactly for the sample rates
8000, 11025, 12000, 16000, 22050, 24000, 32000, 44100, 48000, 64000,
88200 and 96000; every other rate yields the input-validation error. -/
theorem initialize_rate_validation (rg : ReplayGainContext) (rate : ℤ) :
    (WAInitGainAnalysis rg rate).1 = true ↔
      rate = 8000 ∨ rate = 11025 ∨ rate = 12000 ∨ rate = 16000 ∨
      rate = 22050 ∨ rate = 24000 ∨ rate = 32000 ∨ rate = 44100 ∨
      rate = 48000 ∨ rate = 64000 ∨ rate = 88200 ∨ rate = 96000 := by
  rw [init_fst]
  exact freqIndexOf_isSome_iff rate

/-! ## C9 -/

/-- C9 counterexample: `WAAnalyzeSamples` with `count = 0` and channel count
3 returns success (the `num_samples == 0` early return precedes the channel
check), refuting the claim that every call with an invalid channel count,
including `count = 0`, is rejected. -/
theorem feed_zero_count_invalid_channels_ok :
    WAAnalyzeSamples freshContext [] [] 3 = .ok freshContext := rfl

/-- C9 (amended): a `feed` call with `count = 0` succeeds without validating
the channel count and without mutating the context; a call with a nonempty
chunk and a channel count other than 1 or 2 is rejected with
`GAIN_ANALYSIS_ERROR`, the context unchanged. -/
theorem feed_channel_validation (rg : ReplayGainContext) (l r : List ℚ) (ch : ℤ) :
    (l = [] → WAAnalyzeSamples rg l r ch = .ok rg) ∧
    (l ≠ [] → ch ≠ 1 → ch ≠ 2 → WAAnalyzeSamples rg l r ch = .error rg) := by
  constructor
  · intro hl
    subst hl
    rfl
  · intro hl h1 h2
    unfold WAAnalyzeSamples
    rw [if_neg (by simpa using hl), if_neg h1, if_neg h2]

/-- C9 witness: a one-sample call with channel count 3 is rejected with the
context unchanged. -/
theorem feed_channel_validation_witness :
    ([(1 : ℚ)] ≠ ([] : List ℚ)) ∧
      WAAnalyzeSamples freshContext [1] [] 3 = .error freshContext :=
  ⟨by simp,
    (feed_channel_validation freshContext [1] [] 3).2 (by simp) (by decide) (by decide)⟩

/-! ## C5 -/

/-- A context that has already analyzed material: one title-histogram count
in bucket 0, coefficient row 4 (44.1 kHz) selected, window size 2205. -/
def usedCtx : ReplayGainContext :=
  { freshContext with
    A := Function.update (fun _ => 0) 0 1
    freqindex := 4
    sampleWindow := 2205 }

/-- C5 counterexample: `WAInitGainAnalysis` with the unsupported rate 44101
on a previously used context returns the error but keeps the title
histogram, window size and coefficient selection of the earlier session, so
the context does differ from one on which initialize was never successfully
called (the all-zero created context). -/
theorem failed_init_retains_state_counterexample :
    (WAInitGainAnalysis usedCtx 44101).1 = false ∧
    (WAInitGainAnalysis usedCtx 44101).2.A 0 = 1 ∧
    freshContext.A 0 = 0 ∧
    (WAInitGainAnalysis usedCtx 44101).2.sampleWindow = 2205 ∧
    (WAInitGainAnalysis usedCtx 44101).2.freqindex = 4 ∧
    (WAInitGainAnalysis usedCtx 44101).2 ≠ freshContext := by
  refine ⟨rfl, rfl, rfl, rfl, rfl, fun h => ?_⟩
  have h0 : (WAInitGainAnalysis usedCtx 44101).2.A 0 = freshContext.A 0 := by rw [h]
  simp only [show (WAInitGainAnalysis usedCtx 44101).2.A 0 = 1 from rfl,
    show freshContext.A 0 = 0 from rfl] at h0
  exact one_ne_zero h0

/-- C5 (amended): `initialize` with a rate absent from the fixed table
returns the error and mutates only the six filter-history prefixes (zeroing
them); window accumulators, both histograms, window size and coefficient
selection are left exactly as before the call.  In particular a
never-initialized (all-zero) context is left as if never initialized. -/
theorem failed_init_effects (rg : ReplayGainContext) (rate : ℤ)
    (h : freqIndexOf rate = none) :
    WAInitGainAnalysis rg rate =
      (false,
        { rg with
          linpre := zeroHist, lstep := zeroHist, lout := zeroHist
          rinpre := zeroHist, rstep := zeroHist, rout := zeroHist }) ∧
    WAInitGainAnalysis freshContext rate = (false, freshContext) := by
  have key : ∀ rg2 : ReplayGainContext,
      WAInitGainAnalysis rg2 rate =
        (false,
          { rg2 with
            linpre := zeroHist, lstep := zeroHist, lout := zeroHist
            rinpre := zeroHist, rstep := zeroHist, rout := zeroHist }) := by
    intro rg2
    unfold WAInitGainAnalysis WAResetSampleFrequency
    rw [h]
  exact ⟨key rg, key freshContext⟩

/-- C5 witness: the rate 44101 is absent from the table, and a failed
initialize at that rate leaves the fresh context untouched. -/
theorem failed_init_effects_witness :
    freqIndexOf 44101 = none ∧
      WAInitGainAnalysis freshContext 44101 = (false, freshContext) :=
  ⟨rfl, (failed_init_effects freshContext 44101 rfl).2⟩

/-! ## C8 -/

/-- C8: `WAGetTitleGain` adds each title-histogram bucket into the
corresponding album-histogram bucket, zeroes the title histogram, zeroes all
six delay-line history prefixes and resets `totsamp` and both running sums,
while leaving the album histogram (beyond the merge) and the sample-rate
configuration (`freqindex`, `sampleWindow`) unchanged; the returned value is
the percentile gain of the title histogram before the merge. -/
theorem title_query_effects (rg : ReplayGainContext) :
    (∀ i, i < histSize →
      (WAGetTitleGain rg).2.B i = rg.B i + rg.A i ∧ (WAGetTitleGain rg).2.A i = 0) ∧
    (WAGetTitleGain rg).2.linpre = zeroHist ∧
    (WAGetTitleGain rg).2.lstep = zeroHist ∧
    (WAGetTitleGain rg).2.lout = zeroHist ∧
    (WAGetTitleGain rg).2.rinpre = zeroHist ∧
    (WAGetTitleGain rg).2.rstep = zeroHist ∧
    (WAGetTitleGain rg).2.rout = zeroHist ∧
    (WAGetTitleGain rg).2.totsamp = 0 ∧
    (WAGetTitleGain rg).2.lsum = 0 ∧
    (WAGetTitleGain rg).2.rsum = 0 ∧
    (WAGetTitleGain rg).2.freqindex = rg.freqindex ∧
    (WAGetTitleGain rg).2.sampleWindow = rg.sampleWindow ∧
    (WAGetTitleGain rg).1 = analyzeResult rg.A histSize := by
  unfold WAGetTitleGain
  refine ⟨fun i hi => ⟨?_, ?_⟩, rfl, rfl, rfl, rfl, rfl, rfl, rfl, rfl, rfl, rfl, rfl, ?_⟩
  · dsimp only
    rw [if_pos hi]
  · dsimp only
    rw [if_pos hi]
  · dsimp only

/-- C8 witness: the effects at bucket 5 of the fresh context. -/
theorem title_query_effects_witness :
    (5 : ℕ) < histSize ∧
      (WAGetTitleGain freshContext).2.B 5 =
          freshContext.B 5 + freshContext.A 5 ∧
      (WAGetTitleGain freshContext).2.A 5 = 0 :=
  ⟨by norm_num [histSize],
    (title_query_effects freshContext).1 5 (by norm_num [histSize])⟩

/-! ## The percentile scan (C2, C10) -/

lemma percentileScan_succ (Arr : ℕ → ℕ) (n : ℕ) (u : ℤ) :
    percentileScan Arr (n + 1) u =
      if u - Arr n ≤ 0 then some n else percentileScan Arr n (u - Arr n) := rfl

lemma analyzeResult_eq (Arr : ℕ → ℕ) (len : ℕ) :
    analyzeResult Arr len =
      if (∑ j ∈ Finset.range len, Arr j) = 0 then none
      else
        some (PINK_REF -
          ((percentileScan Arr len
              ⌈((∑ j ∈ Finset.range len, Arr j : ℕ) : ℚ) * (1 - RMS_PERCENTILE)⌉).getD
                (2 ^ 64 - 1) : ℚ) / STEPS_per_dB) := rfl

/-- Whenever the threshold is positive and bounded by the total count over
the scanned region, the downward scan breaks at some bucket. -/
lemma percentileScan_break (Arr : ℕ → ℕ) :
    ∀ (n : ℕ) (u : ℤ), 0 < u → u ≤ ∑ j ∈ Finset.range n, (Arr j : ℤ) →
      ∃ i, i < n ∧ percentileScan Arr n u = some i := by
  intro n
  induction n with
  | zero =>
      intro u hu hle
      simp only [Finset.range_zero, Finset.sum_empty] at hle
      omega
  | succ n ih =>
      intro u hu hle
      rw [Finset.sum_range_succ] at hle
      by_cases hbr : u - (Arr n : ℤ) ≤ 0
      · exact ⟨n, Nat.lt_succ_self n, by rw [percentileScan_succ, if_pos hbr]⟩
      · obtain ⟨i, hi, heq⟩ := ih (u - Arr n) (by omega) (by omega)
        exact ⟨i, Nat.lt_succ_of_lt hi, by rw [percentileScan_succ, if_neg hbr]; exact heq⟩

/-- The break index of the downward scan is the greatest index whose
top-down cumulative count reaches the threshold. -/
lemma percentileScan_spec (Arr : ℕ → ℕ) :
    ∀ (n : ℕ) (u : ℤ) (i : ℕ), percentileScan Arr n u = some i →
      i < n ∧ u ≤ ∑ j ∈ Finset.Ico i n, (Arr j : ℤ) ∧
      ∀ k, i < k → k < n → (∑ j ∈ Finset.Ico k n, (Arr j : ℤ)) < u := by
  intro n
  induction n with
  | zero =>
      intro u i h
      simp [percentileScan] at h
  | succ n ih =>
      intro u i h
      rw [percentileScan_succ] at h
      by_cases hbr : u - (Arr n : ℤ) ≤ 0
      · rw [if_pos hbr] at h
        obtain rfl : n = i := by simpa using h
        refine ⟨Nat.lt_succ_self n, ?_, ?_⟩
        · rw [Finset.sum_Ico_succ_top (le_refl n)]
          simp only [Finset.Ico_self, Finset.sum_empty, zero_add]
          omega
        · intro k hik hk
          omega
      · rw [if_neg hbr] at h
        obtain ⟨hi, hle, hmax⟩ := ih (u - Arr n) i h
        refine ⟨Nat.lt_succ_of_lt hi, ?_, ?_⟩
        · rw [Finset.sum_Ico_succ_top (le_of_lt hi)]
          omega
        · intro k hik hks
          rcases Nat.lt_succ_iff_lt_or_eq.mp hks with hkn | rfl
          · have := hmax k hik hkn
            rw [Finset.sum_Ico_succ_top (le_of_lt hkn)]
            omega
          · rw [Finset.sum_Ico_succ_top (le_refl k)]
            simp only [Finset.Ico_self, Finset.sum_empty, zero_add]
            omega

/-- With a nonempty histogram, `analyzeResult` returns the value determined
by the break index of the scan. -/
lemma analyzeResult_spec (Arr : ℕ → ℕ) (len : ℕ)
    (h : (∑ j ∈ Finset.range len, Arr j) ≠ 0) :
    ∃ i, i < len ∧
      percentileScan Arr len
          ⌈((∑ j ∈ Finset.range len, Arr j : ℕ) : ℚ) * (1 - RMS_PERCENTILE)⌉ = some i ∧
      analyzeResult Arr len = some (PINK_REF - (i : ℚ) / STEPS_per_dB) := by
  have hpos0 : 0 < (∑ j ∈ Finset.range len, Arr j) := Nat.pos_of_ne_zero h
  have hposq : (0 : ℚ) < ((∑ j ∈ Finset.range len, Arr j : ℕ) : ℚ) := by
    exact_mod_cast hpos0
  have hpos : 0 < ⌈((∑ j ∈ Finset.range len, Arr j : ℕ) : ℚ) * (1 - RMS_PERCENTILE)⌉ := by
    rw [Int.ceil_pos]
    have : (0 : ℚ) < 1 - RMS_PERCENTILE := by norm_num [RMS_PERCENTILE]
    positivity
  have hle : ⌈((∑ j ∈ Finset.range len, Arr j : ℕ) : ℚ) * (1 - RMS_PERCENTILE)⌉ ≤
      ∑ j ∈ Finset.range len, (Arr j : ℤ) := by
    have hsum : (∑ j ∈ Finset.range len, (Arr j : ℤ)) =
        ((∑ j ∈ Finset.range len, Arr j : ℕ) : ℤ) := by
      push_cast
      rfl
    rw [hsum, Int.ceil_le]
    push_cast
    push_cast at hposq
    norm_num [RMS_PERCENTILE]
    linarith
  obtain ⟨i, hi, heq⟩ := percentileScan_break Arr len _ hpos hle
  refine ⟨i, hi, heq, ?_⟩
  rw [analyzeResult_eq, if_neg h, heq]
  rfl

lemma WAGetTitleGain_fst (rg : ReplayGainContext) :
    (WAGetTitleGain rg).1 = analyzeResult rg.A histSize := by
  unfold WAGetTitleGain
  dsimp only

/-! ## C2 -/

/-- C2: for every histogram, if the sum of all bucket counts is 0 the gain
computation returns the `GAIN_NOT_ENOUGH_SAMPLES` sentinel (and both queries
defer to it); otherwise, with threshold `ceil(total * 0.05)`, the downward
scan stops at the greatest index `i` whose top-down cumulative count reaches
the threshold, and the result is `PINK_REF - i / STEPS_per_dB`
(64.82 - i/100). -/
theorem analyzeResult_percentile_algorithm (Arr : ℕ → ℕ) (len : ℕ) :
    ((∑ j ∈ Finset.range len, Arr j) = 0 → analyzeResult Arr len = none) ∧
    ((∑ j ∈ Finset.range len, Arr j) ≠ 0 →
      ∃ i, i < len ∧
        analyzeResult Arr len = some (PINK_REF - (i : ℚ) / STEPS_per_dB) ∧
        ⌈((∑ j ∈ Finset.range len, Arr j : ℕ) : ℚ) * (5 / 100)⌉ ≤
          ∑ j ∈ Finset.Ico i len, (Arr j : ℤ) ∧
        ∀ k, i < k → k < len →
          (∑ j ∈ Finset.Ico k len, (Arr j : ℤ)) <
            ⌈((∑ j ∈ Finset.range len, Arr j : ℕ) : ℚ) * (5 / 100)⌉) ∧
    (∀ rg : ReplayGainContext, (WAGetTitleGain rg).1 = analyzeResult rg.A histSize) ∧
    (∀ rg : ReplayGainContext, WAGetAlbumGain rg = analyzeResult rg.B histSize) := by
  have hconv : ((1 : ℚ) - RMS_PERCENTILE) = 5 / 100 := by norm_num [RMS_PERCENTILE]
  refine ⟨?_, ?_, WAGetTitleGain_fst, fun rg => rfl⟩
  · intro h
    rw [analyzeResult_eq, if_pos h]
  · intro h
    obtain ⟨i, hi, hscan, hval⟩ := analyzeResult_spec Arr len h
    rw [hconv] at hscan
    obtain ⟨-, hreach, hmax⟩ := percentileScan_spec Arr len _ i hscan
    exact ⟨i, hi, hval, hreach, hmax⟩

/-- C2 witness: the empty histogram sums to zero and yields the sentinel. -/
theorem analyzeResult_percentile_algorithm_witness :
    (∑ j ∈ Finset.range histSize, (fun _ => 0 : ℕ → ℕ) j) = 0 ∧
      analyzeResult (fun _ => 0) histSize = none :=
  ⟨by simp, (analyzeResult_percentile_algorithm (fun _ => 0) histSize).1 (by simp)⟩

/-! ## C10 -/

lemma analyzeResult_some (Arr : ℕ → ℕ) (len : ℕ) (g : ℚ)
    (h : analyzeResult Arr len = some g) :
    ∃ i, i < len ∧ g = PINK_REF - (i : ℚ) / STEPS_per_dB := by
  by_cases hz : (∑ j ∈ Finset.range len, Arr j) = 0
  · rw [analyzeResult_eq, if_pos hz] at h
    cases h
  · obtain ⟨i, hi, -, hval⟩ := analyzeResult_spec Arr len hz
    rw [hval] at h
    exact ⟨i, hi, (Option.some_injective ℚ h).symm⟩

/-- C10: every non-sentinel result of a title or album gain query is
`PINK_REF - i / STEPS_per_dB` for a stop index `i < histSize`, hence lies
between `64.82 - 119.99` and `64.82` inclusive. -/
theorem gain_result_range (rg : ReplayGainContext) (g : ℚ)
    (h : (WAGetTitleGain rg).1 = some g ∨ WAGetAlbumGain rg = some g) :
    (∃ i, i < histSize ∧ g = PINK_REF - (i : ℚ) / STEPS_per_dB) ∧
    PINK_REF - (11999 : ℚ) / STEPS_per_dB ≤ g ∧ g ≤ PINK_REF := by
  have hsome : ∃ Arr : ℕ → ℕ, analyzeResult Arr histSize = some g := by
    rcases h with h | h
    · exact ⟨rg.A, by rw [← WAGetTitleGain_fst]; exact h⟩
    · exact ⟨rg.B, h⟩
  obtain ⟨Arr, hAr⟩ := hsome
  obtain ⟨i, hi, hg⟩ := analyzeResult_some Arr histSize g hAr
  refine ⟨⟨i, hi, hg⟩, ?_, ?_⟩
  · rw [hg]
    have hle : (i : ℚ) ≤ 11999 := by
      have h12 : i < 12000 := by simpa [histSize] using hi
      have : i ≤ 11999 := by omega
      exact_mod_cast this
    have hpos : (0 : ℚ) < STEPS_per_dB := by norm_num [STEPS_per_dB]
    gcongr
  · rw [hg]
    have : (0 : ℚ) ≤ (i : ℚ) / STEPS_per_dB := by
      apply div_nonneg (Nat.cast_nonneg i)
      norm_num [STEPS_per_dB]
    linarith

/-- A context whose title histogram holds 20 windows in the loudest
bucket 11999. -/
def spikeA : ℕ → ℕ := fun i => if i = 11999 then 20 else 0

def spikeCtx : ReplayGainContext := { freshContext with A := spikeA }

lemma spikeA_sum : (∑ j ∈ Finset.range histSize, spikeA j) = 20 := by
  unfold spikeA
  rw [Finset.sum_ite_eq' (Finset.range histSize) 11999 (fun _ => 20)]
  norm_num [histSize]

lemma spike_title :
    (WAGetTitleGain spikeCtx).1 = some (PINK_REF - (11999 : ℚ) / STEPS_per_dB) := by
  rw [WAGetTitleGain_fst]
  rw [show spikeCtx.A = spikeA from rfl]
  rw [analyzeResult_eq, spikeA_sum]
  norm_num
  have hupper : (⌈(20 : ℚ) * (1 - RMS_PERCENTILE)⌉ : ℤ) = 1 := by
    rw [show (20 : ℚ) * (1 - RMS_PERCENTILE) = 1 by norm_num [RMS_PERCENTILE]]
    exact Int.ceil_one
  rw [hupper]
  have hscan : percentileScan spikeA histSize 1 = some 11999 := by
    rw [show histSize = 11999 + 1 from rfl, percentileScan_succ, if_pos]
    norm_num [spikeA]
  rw [hscan]
  norm_num

/-- C10 witness: the spike context's title query returns
`64.82 - 11999/100`, which satisfies the stated range. -/
theorem gain_result_range_witness :
    ((WAGetTitleGain spikeCtx).1 = some (PINK_REF - (11999 : ℚ) / STEPS_per_dB) ∨
        WAGetAlbumGain spikeCtx = some (PINK_REF - (11999 : ℚ) / STEPS_per_dB)) ∧
      ((∃ i, i < histSize ∧
          PINK_REF - (11999 : ℚ) / STEPS_per_dB = PINK_REF - (i : ℚ) / STEPS_per_dB) ∧
        PINK_REF - (11999 : ℚ) / STEPS_per_dB ≤ PINK_REF - (11999 : ℚ) / STEPS_per_dB ∧
        PINK_REF - (11999 : ℚ) / STEPS_per_dB ≤ PINK_REF) :=
  ⟨Or.inl spike_title, gain_result_range spikeCtx _ (Or.inl spike_title)⟩

/-! ## C4 -/

lemma WAGetTitleGain_B (rg : ReplayGainContext) (i : ℕ) (hi : i < histSize) :
    (WAGetTitleGain rg).2.B i = rg.B i + rg.A i := by
  unfold WAGetTitleGain
  dsimp only
  rw [if_pos hi]

lemma WAGetTitleGain_A (rg : ReplayGainContext) (i : ℕ) (hi : i < histSize) :
    (WAGetTitleGain rg).2.A i = 0 := by
  unfold WAGetTitleGain
  dsimp only
  rw [if_pos hi]

/-- The `(lsum + rsum) / totsamp * 0.5` mean square binned when the sample
`(l, r)` completes the current window. -/
def windowMeanSq (rg : ReplayGainContext) (l r : ℚ) : ℚ :=
  (rg.lsum + fsqr (loutVal rg l) + (rg.rsum + fsqr (routVal rg r))) /
    ((rg.totsamp + 1 : ℕ) : ℚ) * (1 / 2)

lemma stepPair_A_flush (rg : ReplayGainContext) (l r : ℚ)
    (h : rg.totsamp + 1 = rg.sampleWindow) :
    (stepPair rg l r).A = histInc rg.A (bucketOf (windowMeanSq rg l r)) := by
  unfold stepPair windowMeanSq
  dsimp only
  rw [if_pos h]

lemma stepPair_lsum_flush (rg : ReplayGainContext) (l r : ℚ)
    (h : rg.totsamp + 1 = rg.sampleWindow) :
    (stepPair rg l r).lsum = 0 ∧ (stepPair rg l r).rsum = 0 ∧
      (stepPair rg l r).totsamp = 0 := by
  unfold stepPair
  dsimp only
  rw [if_pos h]
  exact ⟨rfl, rfl, rfl⟩

/-- A context one sample short of completing its 400-sample window. -/
def winCtx : ReplayGainContext :=
  { freshContext with sampleWindow := 400, totsamp := 399 }

/-- C4 counterexample: processing the sample that completes the window of
`winCtx` adds one count to the title histogram but leaves the album
histogram untouched, and an album-gain query right after the completed
window still returns the sentinel: the mirroring into the album histogram
does not happen at window completion. -/
theorem title_mirror_at_window_counterexample :
    (∑ i ∈ Finset.range histSize, (stepPair winCtx 1 1).A i) =
      (∑ i ∈ Finset.range histSize, winCtx.A i) + 1 ∧
    (stepPair winCtx 1 1).B = winCtx.B ∧
    WAGetAlbumGain (stepPair winCtx 1 1) = none := by
  refine ⟨?_, stepPair_B winCtx 1 1, ?_⟩
  · rw [stepPair_A_flush winCtx 1 1 rfl]
    exact sum_histInc winCtx.A _ (bucketOf_lt _)
  · show analyzeResult (stepPair winCtx 1 1).B histSize = none
    rw [stepPair_B winCtx 1 1]
    rw [show winCtx.B = (fun _ => 0) from rfl, analyzeResult_eq, if_pos]
    simp

/-- C4 (amended): a window completion increments only the title histogram;
every title-histogram count is merged into the album histogram exactly once,
at the moment `WAGetTitleGain` is called, which adds each title bucket into
the album bucket and zeroes the title bucket.  `WAGetAlbumGain` therefore
reflects the samples analyzed since initialization up to (and excluding
windows accumulated after) the last title-gain query. -/
theorem title_mirror_at_title_query :
    (∀ (rg : ReplayGainContext) (l r : ℚ), (stepPair rg l r).B = rg.B) ∧
    (∀ (rg : ReplayGainContext) (i : ℕ), i < histSize →
      (WAGetTitleGain rg).2.B i = rg.B i + rg.A i ∧ (WAGetTitleGain rg).2.A i = 0) ∧
    (∀ rg : ReplayGainContext, WAGetAlbumGain rg = analyzeResult rg.B histSize) :=
  ⟨stepPair_B,
    fun rg i hi => ⟨WAGetTitleGain_B rg i hi, WAGetTitleGain_A rg i hi⟩,
    fun _ => rfl⟩

/-- C4 witness: the amended statement instantiated at `winCtx`, bucket 0. -/
theorem title_mirror_at_title_query_witness :
    (stepPair winCtx 1 1).B = winCtx.B ∧
      ((0 : ℕ) < histSize ∧
        (WAGetTitleGain winCtx).2.B 0 = winCtx.B 0 + winCtx.A 0 ∧
        (WAGetTitleGain winCtx).2.A 0 = 0) :=
  ⟨title_mirror_at_title_query.1 winCtx 1 1,
    by norm_num [histSize],
    title_mirror_at_title_query.2.1 winCtx 0 (by norm_num [histSize])⟩

/-! ## C3 -/

lemma clampNat_eq (t : ℤ) :
    (((if (histSize : ℤ) ≤ (if t < 0 then 0 else t) then (histSize : ℤ) - 1
        else (if t < 0 then 0 else t)).toNat : ℕ) : ℤ) =
      max 0 (min ((histSize : ℤ) - 1) t) := by
  simp only [histSize]
  split_ifs <;> omega

lemma bucketOf_eq (m : ℚ) :
    (bucketOf m : ℤ) =
      max 0 (min ((histSize : ℤ) - 1)
        (cTrunc ((STEPS_per_dB : ℝ) * 10 * Real.logb 10 ((m : ℝ) + 1e-37)))) := by
  unfold bucketOf
  dsimp only
  exact clampNat_eq _

lemma rate_pos_of_some (rate : ℤ) (fi : ℕ) (h : freqIndexOf rate = some fi) :
    (0 : ℤ) < rate := by
  have hd := (freqIndexOf_isSome_iff rate).mp (by rw [h]; rfl)
  rcases hd with h | h | h | h | h | h | h | h | h | h | h | h <;> subst h <;> norm_num

lemma reset_sampleWindow (rg2 : ReplayGainContext) (rate : ℤ) (fi : ℕ)
    (h : freqIndexOf rate = some fi) :
    ((WAResetSampleFrequency rg2 rate).2.sampleWindow : ℤ) =
      ⌈(rate : ℚ) * RMS_WINDOW_TIME⌉ := by
  unfold WAResetSampleFrequency
  rw [h]
  dsimp only
  rw [Int.toNat_of_nonneg]
  apply Int.ceil_nonneg
  have h0 : (0 : ℚ) ≤ (rate : ℚ) := by
    exact_mod_cast le_of_lt (rate_pos_of_some rate fi h)
  have h1 : (0 : ℚ) ≤ RMS_WINDOW_TIME := by norm_num [RMS_WINDOW_TIME]
  positivity

/-- C3: when the incoming sample completes the analysis window
(`totsamp + 1 = sampleWindow`), the engine bins
`STEPS_per_dB * 10 * log10((lsum + rsum) / totsamp * 0.5 + 1e-37)`,
truncated and clamped into `[0, histSize)`, into the title histogram, and
resets `lsum`, `rsum` and `totsamp` to zero; `sampleWindow` itself is set at
(re)initialization to `ceil(rate * RMS_WINDOW_TIME)`. -/
theorem analyzeSamples_window_completion (rg : ReplayGainContext) (l r : ℚ)
    (h : rg.totsamp + 1 = rg.sampleWindow) :
    (stepPair rg l r).A = histInc rg.A (bucketOf (windowMeanSq rg l r)) ∧
    ((bucketOf (windowMeanSq rg l r) : ℤ) =
      max 0 (min ((histSize : ℤ) - 1)
        (cTrunc ((STEPS_per_dB : ℝ) * 10 *
          Real.logb 10 (((windowMeanSq rg l r : ℚ) : ℝ) + 1e-37))))) ∧
    bucketOf (windowMeanSq rg l r) < histSize ∧
    (stepPair rg l r).lsum = 0 ∧
    (stepPair rg l r).rsum = 0 ∧
    (stepPair rg l r).totsamp = 0 ∧
    (∀ (rg2 : ReplayGainContext) (rate : ℤ) (fi : ℕ), freqIndexOf rate = some fi →
      ((WAResetSampleFrequency rg2 rate).2.sampleWindow : ℤ) =
        ⌈(rate : ℚ) * RMS_WINDOW_TIME⌉) := by
  obtain ⟨h1, h2, h3⟩ := stepPair_lsum_flush rg l r h
  exact ⟨stepPair_A_flush rg l r h, bucketOf_eq _, bucketOf_lt _, h1, h2, h3,
    reset_sampleWindow⟩

/-- C3 witness: the window-completing step on `winCtx` bins one count and
resets the accumulators. -/
theorem analyzeSamples_window_completion_witness :
    winCtx.totsamp + 1 = winCtx.sampleWindow ∧
      (stepPair winCtx 1 1).lsum = 0 ∧
      (stepPair winCtx 1 1).rsum = 0 ∧
      (stepPair winCtx 1 1).totsamp = 0 :=
  ⟨rfl,
    (analyzeSamples_window_completion winCtx 1 1 rfl).2.2.2.1,
    (analyzeSamples_window_completion winCtx 1 1 rfl).2.2.2.2.1,
    (analyzeSamples_window_completion winCtx 1 1 rfl).2.2.2.2.2.1⟩

/-! ## C1 -/

lemma feedPairs_nil (rg : ReplayGainContext) : feedPairs rg [] = .ok rg := rfl

lemma feedPairs_cons (rg : ReplayGainContext) (p : ℚ × ℚ) (rest : List (ℚ × ℚ)) :
    feedPairs rg (p :: rest) =
      if (stepPair rg p.1 p.2).sampleWindow < (stepPair rg p.1 p.2).totsamp
      then .error (stepPair rg p.1 p.2)
      else feedPairs (stepPair rg p.1 p.2) rest := rfl

lemma feedPairs_append (xs ys : List (ℚ × ℚ)) :
    ∀ rg : ReplayGainContext,
      feedPairs rg (xs ++ ys) = feedPairs rg xs >>= fun s => feedPairs s ys := by
  induction xs with
  | nil => intro rg; rfl
  | cons p rest ih =>
      intro rg
      rw [List.cons_append, feedPairs_cons, feedPairs_cons]
      by_cases hov :
          (stepPair rg p.1 p.2).sampleWindow < (stepPair rg p.1 p.2).totsamp
      · rw [if_pos hov, if_pos hov]
        rfl
      · rw [if_neg hov, if_neg hov, ih]

lemma analyzeSamples_append (rg : ReplayGainContext) (l1 r1 l2 r2 : List ℚ)
    (h : l1.length = r1.length) :
    WAAnalyzeSamples rg (l1 ++ l2) (r1 ++ r2) 2 =
      WAAnalyzeSamples rg l1 r1 2 >>= fun s => WAAnalyzeSamples s l2 r2 2 := by
  by_cases h1 : l1 = []
  · subst h1
    have hr : r1 = [] := List.eq_nil_of_length_eq_zero h.symm
    subst hr
    simp only [List.nil_append]
    rw [show WAAnalyzeSamples rg ([] : List ℚ) ([] : List ℚ) 2 = .ok rg from rfl]
    rfl
  · have hl1 : ¬(l1.length = 0) := by simpa [List.length_eq_zero] using h1
    have hl12 : ¬((l1 ++ l2).length = 0) := by
      simp only [List.length_append]
      omega
    unfold WAAnalyzeSamples
    rw [if_neg hl12, if_neg (by norm_num : ¬(2 : ℤ) = 1), if_pos rfl,
      if_neg hl1, if_neg (by norm_num : ¬(2 : ℤ) = 1), if_pos rfl,
      List.zip_append h, feedPairs_append]
    apply bind_congr
    intro s
    by_cases h2 : l2 = []
    · subst h2
      rfl
    · have hl2 : ¬(l2.length = 0) := by simpa [List.length_eq_zero] using h2
      rw [if_neg hl2, if_neg (by norm_num : ¬(2 : ℤ) = 1), if_pos rfl]

/-- C1: feeding the concatenation of any list of stereo chunks in one
`WAAnalyzeSamples` call leaves the context in exactly the state produced by
feeding the chunks in order as separate calls, so subsequent title-gain and
album-gain queries return identical results. -/
theorem analyzeSamples_chunking_transparency (rg : ReplayGainContext)
    (chunks : List (List ℚ × List ℚ))
    (h : ∀ c ∈ chunks, (Prod.fst c).length = (Prod.snd c).length) :
    WAAnalyzeSamples rg (chunks.map Prod.fst).flatten (chunks.map Prod.snd).flatten 2 =
      List.foldlM (fun s c => WAAnalyzeSamples s (Prod.fst c) (Prod.snd c) 2) rg chunks ∧
    (WAAnalyzeSamples rg (chunks.map Prod.fst).flatten (chunks.map Prod.snd).flatten 2).map
        (fun s => (WAGetTitleGain s).1) =
      (List.foldlM (fun s c => WAAnalyzeSamples s (Prod.fst c) (Prod.snd c) 2) rg
          chunks).map (fun s => (WAGetTitleGain s).1) ∧
    (WAAnalyzeSamples rg (chunks.map Prod.fst).flatten (chunks.map Prod.snd).flatten 2).map
        WAGetAlbumGain =
      (List.foldlM (fun s c => WAAnalyzeSamples s (Prod.fst c) (Prod.snd c) 2) rg
          chunks).map WAGetAlbumGain := by
  have main : ∀ (cs : List (List ℚ × List ℚ)) (rg0 : ReplayGainContext),
      (∀ c ∈ cs, (Prod.fst c).length = (Prod.snd c).length) →
      WAAnalyzeSamples rg0 (cs.map Prod.fst).flatten (cs.map Prod.snd).flatten 2 =
        List.foldlM (fun s c => WAAnalyzeSamples s (Prod.fst c) (Prod.snd c) 2) rg0 cs := by
    intro cs
    induction cs with
    | nil => intro rg0 _; rfl
    | cons c rest ih =>
        intro rg0 hc
        rw [List.map_cons, List.map_cons, List.flatten_cons, List.flatten_cons,
          analyzeSamples_append rg0 c.1 c.2 (rest.map Prod.fst).flatten
            (rest.map Prod.snd).flatten (hc c (List.mem_cons_self c rest)),
          List.foldlM_cons]
        apply bind_congr
        intro s
        exact ih s (fun d hd => hc d (List.mem_cons_of_mem c hd))
  refine ⟨main chunks rg h, ?_, ?_⟩ <;> rw [main chunks rg h]

/-- C1 witness: splitting the two-sample stream `[1, 2]` into two one-sample
chunks. -/
theorem analyzeSamples_chunking_transparency_witness :
    (∀ c ∈ [(([1] : List ℚ), ([1] : List ℚ)), ([2], [2])],
      (Prod.fst c).length = (Prod.snd c).length) ∧
    WAAnalyzeSamples freshContext [1, 2] [1, 2] 2 =
      List.foldlM (fun s c => WAAnalyzeSamples s (Prod.fst c) (Prod.snd c) 2)
        freshContext [([1], [1]), ([2], [2])] := by
  have hc : ∀ c ∈ [(([1] : List ℚ), ([1] : List ℚ)), ([2], [2])],
      (Prod.fst c).length = (Prod.snd c).length := by
    intro c hmem
    fin_cases hmem <;> rfl
  have hmain :=
    (analyzeSamples_chunking_transparency freshContext [([1], [1]), ([2], [2])] hc).1
  exact ⟨hc, hmain⟩

/-! ## C7 -/

lemma stepPair_inv (rg : ReplayGainContext) (l r : ℚ)
    (h : rg.totsamp < rg.sampleWindow) :
    (stepPair rg l r).totsamp < (stepPair rg l r).sampleWindow ∧
      ¬((stepPair rg l r).sampleWindow < (stepPair rg l r).totsamp) := by
  rw [stepPair_totsamp, stepPair_sampleWindow]
  split_ifs with he
  · omega
  · omega

lemma feedPairs_ok (ps : List (ℚ × ℚ)) :
    ∀ rg : ReplayGainContext, rg.totsamp < rg.sampleWindow →
      ∃ t, feedPairs rg ps = .ok t ∧ t.totsamp < t.sampleWindow ∧
        t.sampleWindow = rg.sampleWindow := by
  induction ps with
  | nil => intro rg h; exact ⟨rg, rfl, h, rfl⟩
  | cons p rest ih =>
      intro rg h
      obtain ⟨hinv, hnot⟩ := stepPair_inv rg p.1 p.2 h
      obtain ⟨t, heq, ht, hw⟩ := ih (stepPair rg p.1 p.2) hinv
      refine ⟨t, ?_, ht, by rw [hw, stepPair_sampleWindow]⟩
      rw [feedPairs_cons, if_neg hnot]
      exact heq

lemma reset_state (rg rg1 : ReplayGainContext) (rate : ℤ)
    (h : WAResetSampleFrequency rg rate = (true, rg1)) :
    rg1.totsamp = 0 ∧ 0 < rg1.sampleWindow := by
  unfold WAResetSampleFrequency at h
  rcases hf : freqIndexOf rate with _ | fi
  · rw [hf] at h
    injection h with hb _
    cases hb
  · rw [hf] at h
    injection h with _ hrg
    subst hrg
    refine ⟨rfl, ?_⟩
    have hpos : (0 : ℤ) < ⌈(rate : ℚ) * RMS_WINDOW_TIME⌉ := by
      rw [Int.ceil_pos]
      have h0 : (0 : ℚ) < (rate : ℚ) := by
        exact_mod_cast rate_pos_of_some rate fi hf
      have h2 : (0 : ℚ) < RMS_WINDOW_TIME := by norm_num [RMS_WINDOW_TIME]
      positivity
    show 0 < (⌈(rate : ℚ) * RMS_WINDOW_TIME⌉).toNat
    omega

lemma init_state (rg rg' : ReplayGainContext) (rate : ℤ)
    (h : WAInitGainAnalysis rg rate = (true, rg')) :
    rg'.totsamp = 0 ∧ 0 < rg'.sampleWindow := by
  unfold WAInitGainAnalysis at h
  rcases hr : WAResetSampleFrequency rg rate with ⟨b, rg1⟩
  rw [hr] at h
  cases b
  · injection h with hb _
    cases hb
  · injection h with _ hrg
    obtain ⟨h0, hw⟩ := reset_state rg rg1 rate hr
    rw [← hrg]
    exact ⟨h0, hw⟩

lemma WAGetTitleGain_totsamp (rg : ReplayGainContext) :
    (WAGetTitleGain rg).2.totsamp = 0 := by
  unfold WAGetTitleGain
  dsimp only

lemma WAGetTitleGain_sampleWindow (rg : ReplayGainContext) :
    (WAGetTitleGain rg).2.sampleWindow = rg.sampleWindow := by
  unfold WAGetTitleGain
  dsimp only

lemma analyzeSamples_preserve (s s' : ReplayGainContext) (l r : List ℚ) (ch : ℤ)
    (hinv : s.totsamp < s.sampleWindow)
    (h : WAAnalyzeSamples s l r ch = .ok s') :
    s'.totsamp < s'.sampleWindow := by
  unfold WAAnalyzeSamples at h
  by_cases h0 : l.length = 0
  · rw [if_pos h0] at h
    injection h with h1
    rw [← h1]
    exact hinv
  · rw [if_neg h0] at h
    by_cases h1 : ch = 1
    · rw [if_pos h1] at h
      obtain ⟨t, heq, ht, -⟩ := feedPairs_ok (l.zip l) s hinv
      rw [heq] at h
      injection h with h2
      rw [← h2]
      exact ht
    · rw [if_neg h1] at h
      by_cases h2 : ch = 2
      · rw [if_pos h2] at h
        obtain ⟨t, heq, ht, -⟩ := feedPairs_ok (l.zip r) s hinv
        rw [heq] at h
        injection h with h3
        rw [← h3]
        exact ht
      · rw [if_neg h2] at h
        cases h

/-- C7: in every context state reachable between calls,
`totsamp < sampleWindow`; consequently the internal-overflow condition
`totsamp > sampleWindow` is never reached and `WAAnalyzeSamples` with a
valid channel count never returns the overflow failure. -/
theorem window_counter_invariant (s : ReplayGainContext) (h : Reachable s) :
    s.totsamp < s.sampleWindow ∧
    ∀ l r : List ℚ,
      (∃ t, WAAnalyzeSamples s l r 1 = .ok t) ∧
      (∃ t, WAAnalyzeSamples s l r 2 = .ok t) := by
  have core : s.totsamp < s.sampleWindow := by
    induction h with
    | init rg rg' rate hinit =>
        obtain ⟨h0, hw⟩ := init_state rg rg' rate hinit
        omega
    | feed s0 s' l r ch hs hfeed ih => exact analyzeSamples_preserve s0 s' l r ch ih hfeed
    | title s0 hs ih =>
        rw [WAGetTitleGain_totsamp, WAGetTitleGain_sampleWindow]
        omega
  refine ⟨core, fun l r => ⟨?_, ?_⟩⟩
  · by_cases h0 : l.length = 0
    · exact ⟨s, by unfold WAAnalyzeSamples; rw [if_pos h0]⟩
    · obtain ⟨t, heq, -, -⟩ := feedPairs_ok (l.zip l) s core
      exact ⟨t, by unfold WAAnalyzeSamples; rw [if_neg h0, if_pos rfl]; exact heq⟩
  · by_cases h0 : l.length = 0
    · exact ⟨s, by unfold WAAnalyzeSamples; rw [if_pos h0]⟩
    · obtain ⟨t, heq, -, -⟩ := feedPairs_ok (l.zip r) s core
      exact ⟨t, by
        unfold WAAnalyzeSamples
        rw [if_neg h0, if_neg (by norm_num : ¬(2 : ℤ) = 1), if_pos rfl]
        exact heq⟩

/-- The state right after a successful `WAInitGainAnalysis` at 8000 Hz. -/
def initCtx : ReplayGainContext := (WAInitGainAnalysis freshContext 8000).2

lemma initCtx_reachable : Reachable initCtx := by
  apply Reachable.init freshContext initCtx 8000
  have h1 : (WAInitGainAnalysis freshContext 8000).1 = true := by
    rw [init_fst]
    rfl
  exact Prod.ext h1 rfl

/-- C7 witness: the freshly initialized 8000 Hz context satisfies the
invariant and accepts a one-sample stereo feed. -/
theorem window_counter_invariant_witness :
    initCtx.totsamp < initCtx.sampleWindow ∧
      (∃ t, WAAnalyzeSamples initCtx [1] [1] 2 = .ok t) :=
  ⟨(window_counter_invariant initCtx initCtx_reachable).1,
    ((window_counter_invariant initCtx initCtx_reachable).2 [1] [1]).2⟩
